import Mathlib

/-!
Shallow embedding of `cyanide/builder.py` (the `Builder.build` pipeline and its
inner helper `find_matched_atom_indices`) over exact rational arithmetic.

Positions are 3-vectors of rationals; the periodic cell is a 3x3 rational
matrix.  The Python source compares `np.linalg.norm(s) < 1e-3`; since both
sides are non-negative that is equivalent to comparing squared norms against
`1e-6`, which keeps everything inside ℚ.

External collaborators of the builder (`Scaler.scale`, `Locator.locate`,
`LocalStructure.matching_permutation`, building-block methods) are not part of
the visible source; they are modelled from the spec as function parameters or
small definitions, each marked with a `Modelled from the spec:` doc comment.
-/

namespace Cyanide

/-- A 3-vector of rational coordinates (an atom position or displacement);
the componentwise additive-group and ℚ-module structure comes from the
product instances. -/
abbrev Vec3 : Type := ℚ × ℚ × ℚ

/-- First (x) component of a 3-vector. -/
def Vec3.x (v : Vec3) : ℚ := v.1

/-- Second (y) component of a 3-vector. -/
def Vec3.y (v : Vec3) : ℚ := v.2.1

/-- Third (z) component of a 3-vector. -/
def Vec3.z (v : Vec3) : ℚ := v.2.2

/-- Squared Euclidean norm of a 3-vector. -/
def Vec3.normSq (v : Vec3) : ℚ := v.x * v.x + v.y * v.y + v.z * v.z

/-- A 3x3 rational matrix, used for the periodic cell and its inverse. -/
structure Mat3 where
  a00 : ℚ
  a01 : ℚ
  a02 : ℚ
  a10 : ℚ
  a11 : ℚ
  a12 : ℚ
  a20 : ℚ
  a21 : ℚ
  a22 : ℚ
deriving DecidableEq, Repr

/-- Identity 3x3 matrix. -/
def Mat3.id3 : Mat3 := ⟨1, 0, 0, 0, 1, 0, 0, 0, 1⟩

/-- Row-vector times matrix, mirroring numpy `v @ M`. -/
def vecMul (v : Vec3) (m : Mat3) : Vec3 :=
  ⟨v.x * m.a00 + v.y * m.a10 + v.z * m.a20,
   v.x * m.a01 + v.y * m.a11 + v.z * m.a21,
   v.x * m.a02 + v.y * m.a12 + v.z * m.a22⟩

/-- Determinant of a 3x3 matrix. -/
def Mat3.det (m : Mat3) : ℚ :=
  m.a00 * (m.a11 * m.a22 - m.a12 * m.a21)
    - m.a01 * (m.a10 * m.a22 - m.a12 * m.a20)
    + m.a02 * (m.a10 * m.a21 - m.a11 * m.a20)

/-- Matrix inverse via the adjugate formula, mirroring `np.linalg.inv`
(undefined on singular input; there numpy raises, here the entries are junk). -/
def Mat3.inv (m : Mat3) : Mat3 :=
  let d := m.det
  ⟨(m.a11 * m.a22 - m.a12 * m.a21) / d,
   (m.a02 * m.a21 - m.a01 * m.a22) / d,
   (m.a01 * m.a12 - m.a02 * m.a11) / d,
   (m.a12 * m.a20 - m.a10 * m.a22) / d,
   (m.a00 * m.a22 - m.a02 * m.a20) / d,
   (m.a02 * m.a10 - m.a00 * m.a12) / d,
   (m.a10 * m.a21 - m.a11 * m.a20) / d,
   (m.a01 * m.a20 - m.a00 * m.a21) / d,
   (m.a00 * m.a11 - m.a01 * m.a10) / d⟩

/-- A neighbor record of the topology: the neighbor's point index and the
directional distance vector towards it. -/
structure Neighbor where
  index : Nat
  distance_vector : Vec3
deriving DecidableEq, Repr

/-- Modelled from the spec: a LocalStructure is an ordered list of peripheral
point positions together with a parallel list of original indices (the
builder constructs one literally as `LocalStructure([r1, r1+d], [i1, i2])`). -/
structure LocalStructure where
  positions : List Vec3
  indices : List Nat
deriving DecidableEq, Repr

/-- Modelled from the spec: the read-only Topology contract used by the
builder — counts, index sets, type lookups, neighbor lists, point positions,
the periodic cell, and the per-point LocalStructure. -/
structure Topology where
  n_node_types : Nat
  n_all_points : Nat
  node_indices : List Nat
  edge_indices : List Nat
  get_node_type : Nat → Nat
  get_edge_type : Nat → Nat × Nat
  neighbor_list : Nat → List Neighbor
  positions : Nat → Vec3
  cell : Mat3
  local_structure : Nat → LocalStructure

/-- Modelled from the spec: a building-block template — atom positions, the
intrinsic bond list (local atom-index pairs), and the ordered connection-point
atom indices. -/
structure BuildingBlock where
  atoms : List Vec3
  bonds : List (Nat × Nat)
  connection_point_indices : List Nat
deriving DecidableEq, Repr

/-- A located building block: absolute atom positions plus the template's
bond list and connection-point ordering (topologically unchanged). -/
structure LocatedBB where
  positions : List Vec3
  bonds : List (Nat × Nat)
  connection_point_indices : List Nat
deriving DecidableEq, Repr

/-- Atom count of a located block. -/
def LocatedBB.n_atoms (bb : LocatedBB) : Nat := bb.positions.length

/-- Centroid of a list of positions (zero for the empty list). -/
def centroid (ps : List Vec3) : Vec3 :=
  ((1 : ℚ) / ps.length) • ps.sum

/-- Modelled from the spec: `set_center` translates a located block so that
its center (centroid) becomes the given point. -/
def setCenter (c : Vec3) (bb : LocatedBB) : LocatedBB :=
  { bb with positions := bb.positions.map (fun p => p + (c - centroid bb.positions)) }

/-- Modelled from the spec: a located block's `local_structure()` — its
connection-point positions relative to its centroid, indexed by the
connection-point atom indices.  Out-of-range indices are modelled with a
zero default (the Python code would raise there). -/
def LocatedBB.local_structure (bb : LocatedBB) : LocalStructure :=
  { positions :=
      bb.connection_point_indices.map
        (fun a => bb.positions.getD a 0 - centroid bb.positions),
    indices := bb.connection_point_indices }

/-- Failure modes of the build.  `internalError` stands for untyped Python
runtime failures (unpacking or attribute errors on malformed state);
`missingNeighborRecord` is the spec's name for the failure of the zero-sum
neighbor scan (in the source that scan falls through its `for` without
binding `a1`/`a2`, so Python raises an unbound-local error). -/
inductive BuildError where
  | inputCardinality
  | shapeMismatch
  | noMatchFound
  | missingNeighborRecord
  | internalError
deriving DecidableEq, Repr

/-- Modelled from the spec: the builder's external collaborators.  `scale`
resizes the topology to fit the templates; `locate` rigidly aligns a block
onto a target LocalStructure and returns the positioned copy's atom positions
with the fit error; `matchPerm` is `LocalStructure.matching_permutation`. -/
structure Externals where
  scale : Topology → List BuildingBlock → List ((Nat × Nat) × BuildingBlock) → Topology
  locate : LocalStructure → BuildingBlock → Except BuildError (List Vec3 × ℚ)
  matchPerm : LocalStructure → LocalStructure → Except BuildError (List Nat)

/-- Zero-sum test of the neighbor scan: `norm(n.distance_vector + v) < 1e-3`
in the source, expressed on squared norms (`1e-6`) to stay in ℚ. -/
def zeroSum (v : Vec3) (n : Neighbor) : Bool :=
  (n.distance_vector + v).normSq < 1 / 1000000

/-- Index of the first neighbor record passing the zero-sum test, mirroring
the `for o, n in enumerate(...)` scan with `break` in the source. -/
def scanMatch (v : Vec3) : List Neighbor → Option Nat
  | [] => none
  | n :: rest => if zeroSum v n then some 0 else (scanMatch v rest).map (· + 1)

/-- Matched connection-point atom index for one endpoint `i` of an edge whose
neighbor record for `i` carries distance vector `v`: find the first zero-sum
index `o` in `neighbor_list[i]`, then take
`connection_point_indices[perm][o] = connection_point_indices[perm[o]]`. -/
def matchedIndexFor (topo : Topology) (located : List (Option LocatedBB))
    (perms : List (Option (List Nat))) (i : Nat) (v : Vec3) :
    Except BuildError Nat :=
  match scanMatch v (topo.neighbor_list i) with
  | none => .error .missingNeighborRecord
  | some o =>
    match located.getD i none, perms.getD i none with
    | some bb, some p => .ok (bb.connection_point_indices.getD (p.getD o 0) 0)
    | _, _ => .error .internalError

/-- The builder's `find_matched_atom_indices(e)`: unpack the edge's two
neighbor records and resolve the matched atom index on each endpoint. -/
def find_matched_atom_indices (topo : Topology) (located : List (Option LocatedBB))
    (perms : List (Option (List Nat))) (e : Nat) :
    Except BuildError (Nat × Nat) :=
  match topo.neighbor_list e with
  | [n1, n2] => do
    let a1 ← matchedIndexFor topo located perms n1.index n1.distance_vector
    let a2 ← matchedIndexFor topo located perms n2.index n2.distance_vector
    .ok (a1, a2)
  | _ => .error .internalError

/-- Placement of every node of one type `t` with template `bb`, mirroring the
inner loop of the node-placement step: skip points of a different type,
otherwise locate the template on the point's LocalStructure and translate the
copy's center to the point's position. -/
def placeNodesType (ext : Externals) (topo : Topology) (t : Nat) (bb : BuildingBlock) :
    List Nat → List (Option LocatedBB) → Except BuildError (List (Option LocatedBB))
  | [], located => .ok located
  | i :: rest, located =>
    if t = topo.get_node_type i then do
      let lr ← ext.locate (topo.local_structure i) bb
      let ln := setCenter (topo.positions i)
        ⟨lr.1, bb.bonds, bb.connection_point_indices⟩
      placeNodesType ext topo t bb rest (located.set i (some ln))
    else
      placeNodesType ext topo t bb rest located

/-- Node placement: outer loop over `enumerate(node_bbs)`. -/
def placeNodes (ext : Externals) (topo : Topology) :
    List (Nat × BuildingBlock) → List (Option LocatedBB) →
    Except BuildError (List (Option LocatedBB))
  | [], located => .ok located
  | (t, bb) :: rest, located => do
    let located1 ← placeNodesType ext topo t bb topo.node_indices located
    placeNodes ext topo rest located1

/-- Node matching permutations: for each node index, require a located block
(the source dereferences it unconditionally) and match its local structure
against the topology's. -/
def nodePerms (ext : Externals) (topo : Topology) (located : List (Option LocatedBB)) :
    List Nat → List (Option (List Nat)) → Except BuildError (List (Option (List Nat)))
  | [], perms => .ok perms
  | i :: rest, perms =>
    match located.getD i none with
    | none => .error .internalError
    | some bb => do
      let p ← ext.matchPerm (topo.local_structure i) bb.local_structure
      nodePerms ext topo located rest (perms.set i (some p))

/-- One component of the minimum-image wrap:
`s = np.where(s>0.5, s-1.0, s)` followed by `s = np.where(s<-0.5, s+1.0, s)`. -/
def wrapComp (s : ℚ) : ℚ :=
  let s1 := if s > 1 / 2 then s - 1 else s
  if s1 < -(1 / 2) then s1 + 1 else s1

/-- Component-wise minimum-image wrap of a fractional coordinate vector. -/
def wrapVec (s : Vec3) : Vec3 := ⟨wrapComp s.x, wrapComp s.y, wrapComp s.z⟩

/-- Geometry of one edge placement: endpoint indices `i1, i2`, the matched
atom position `r1` on the first endpoint's block, and the minimum-image
displacement `d` towards the matched atom on the second endpoint's block. -/
def edgeGeom (topo : Topology) (located : List (Option LocatedBB))
    (perms : List (Option (List Nat))) (e : Nat) :
    Except BuildError (Nat × Nat × Vec3 × Vec3) :=
  match topo.neighbor_list e with
  | [n1, n2] =>
    match located.getD n1.index none, located.getD n2.index none with
    | some bb1, some bb2 => do
      let a ← find_matched_atom_indices topo located perms e
      let r1 := bb1.positions.getD a.1 0
      let r2 := bb2.positions.getD a.2 0
      let d := r2 - r1
      let s := vecMul d topo.cell.inv
      let d2 := vecMul (wrapVec s) topo.cell
      .ok (n1.index, n2.index, r1, d2)
    | _, _ => .error .internalError
  | _ => .error .internalError

/-- Placement of every edge of one type `t` with edge template `ebb`: skip
edges of a different type; otherwise compute the edge geometry, locate the
edge template on the two-point target `[r1, r1+d]`, and center the copy at
`r1 + 0.5*d`. -/
def placeEdgesType (ext : Externals) (topo : Topology)
    (perms : List (Option (List Nat))) (t : Nat × Nat) (ebb : BuildingBlock) :
    List Nat → List (Option LocatedBB) → Except BuildError (List (Option LocatedBB))
  | [], located => .ok located
  | e :: rest, located =>
    if topo.get_edge_type e = t then do
      let g ← edgeGeom topo located perms e
      let (i1, i2, r1, d) := g
      let target : LocalStructure := ⟨[r1, r1 + d], [i1, i2]⟩
      let lr ← ext.locate target ebb
      let le := setCenter (r1 + (1 / 2 : ℚ) • d)
        ⟨lr.1, ebb.bonds, ebb.connection_point_indices⟩
      placeEdgesType ext topo perms t ebb rest (located.set e (some le))
    else
      placeEdgesType ext topo perms t ebb rest located

/-- Edge placement: outer loop over the items of the edge-template mapping
(the source's defaultdict holds no `None` values in our model, matching the
`continue` on `None` entries). -/
def placeEdges (ext : Externals) (topo : Topology) (perms : List (Option (List Nat))) :
    List ((Nat × Nat) × BuildingBlock) → List (Option LocatedBB) →
    Except BuildError (List (Option LocatedBB))
  | [], located => .ok located
  | (t, ebb) :: rest, located => do
    let located1 ← placeEdgesType ext topo perms t ebb topo.edge_indices located
    placeEdges ext topo perms rest located1

/-- Edge matching permutations: like the node step, but edges without a
located block are skipped. -/
def edgePerms (ext : Externals) (topo : Topology) (located : List (Option LocatedBB)) :
    List Nat → List (Option (List Nat)) → Except BuildError (List (Option (List Nat)))
  | [], perms => .ok perms
  | i :: rest, perms =>
    match located.getD i none with
    | none => edgePerms ext topo located rest perms
    | some bb => do
      let p ← ext.matchPerm (topo.local_structure i) bb.local_structure
      edgePerms ext topo located rest (perms.set i (some p))

/-- Atom-count contribution of one located slot: zero when absent. -/
def offsetDelta : Option LocatedBB → Nat
  | none => 0
  | some bb => bb.n_atoms

/-- Running prefix sums starting at `acc`; one output per input plus the
seed, so `offsetsFrom 0 located.dropLast` has one entry per point. -/
def offsetsFrom (acc : Nat) : List (Option LocatedBB) → List Nat
  | [] => [acc]
  | obb :: rest => acc :: offsetsFrom (acc + offsetDelta obb) rest

/-- The builder's `index_offsets` array: `offset[0] = 0` and
`offset[i+1] = offset[i] + (atom count at i, or 0 when absent)`, computed
over `located_bbs[:-1]`. -/
def indexOffsets (located : List (Option LocatedBB)) : List Nat :=
  offsetsFrom 0 located.dropLast

/-- Shift a bond list by a global index offset (`bb.bonds + offset`). -/
def shiftBonds (off : Nat) (bs : List (Nat × Nat)) : List (Nat × Nat) :=
  bs.map (fun pq => (pq.1 + off, pq.2 + off))

/-- Intrinsic bonds of all located blocks, shifted by their offsets and
concatenated in point order (`zip(index_offsets, located_bbs)`). -/
def bbBonds (offsets : List Nat) (located : List (Option LocatedBB)) : List (Nat × Nat) :=
  ((offsets.zip located).map
    (fun ol => match ol.2 with
      | none => []
      | some bb => shiftBonds ol.1 bb.bonds)).flatten

/-- Inter-block bonds contributed by one topology edge `j`: resolve the
matched atoms, shift them by the endpoint offsets; when an edge block exists
emit two bonds through its permuted connection points (which must unpack to
exactly two), otherwise one direct bond. -/
def interBondsForEdge (topo : Topology) (located : List (Option LocatedBB))
    (perms : List (Option (List Nat))) (offsets : List Nat) (j : Nat) :
    Except BuildError (List (Nat × Nat)) := do
  let a ← find_matched_atom_indices topo located perms j
  match topo.neighbor_list j with
  | [n1, n2] =>
    let g1 := a.1 + offsets.getD n1.index 0
    let g2 := a.2 + offsets.getD n2.index 0
    match located.getD j none with
    | some bb =>
      match perms.getD j none with
      | none => .error .internalError
      | some p =>
        match p.map (fun k => bb.connection_point_indices.getD k 0) with
        | [c1, c2] => .ok [(c1 + offsets.getD j 0, g1), (c2 + offsets.getD j 0, g2)]
        | _ => .error .internalError
    | none => .ok [(g1, g2)]
  | _ => .error .internalError

/-- Inter-block bonds over a list of edges, concatenated in edge order. -/
def interBonds (topo : Topology) (located : List (Option LocatedBB))
    (perms : List (Option (List Nat))) (offsets : List Nat) :
    List Nat → Except BuildError (List (Nat × Nat))
  | [] => .ok []
  | j :: rest => do
    let b ← interBondsForEdge topo located perms offsets j
    let bs ← interBonds topo located perms offsets rest
    .ok (b ++ bs)

/-- Modelled from the spec: the output structure container, holding the
concatenated atom positions, the global bond list, the periodic cell, and the
wrap flag passed to its constructor. -/
structure MOF where
  positions : List Vec3
  bonds : List (Nat × Nat)
  cell : Mat3
  wrap : Bool
deriving DecidableEq, Repr

/-- Intermediate and final state of one build: the scaled topology, the
located blocks, the permutations, the offsets, both bond groups, and the
emitted structure. -/
structure BuildState where
  topo : Topology
  located : List (Option LocatedBB)
  perms : List (Option (List Nat))
  offsets : List Nat
  intra : List (Nat × Nat)
  inter : List (Nat × Nat)
  mof : MOF

/-- The whole build pipeline of `Builder.build`, keeping its intermediate
state: cardinality check, scaling, node placement, node permutations, edge
placement, edge permutations, offsets, intrinsic and inter-block bonds, atom
concatenation, and the final container with `wrap := True`.  An entirely
absent edge mapping is the empty item list (the source's bare defaultdict).
The emptiness check before assembly mirrors the `np.concatenate` /
`sum(...)` failures on a build with no located block at all. -/
def buildState (ext : Externals) (topo0 : Topology) (node_bbs : List BuildingBlock)
    (edge_bbs : Option (List ((Nat × Nat) × BuildingBlock))) :
    Except BuildError BuildState :=
  let items := edge_bbs.getD []
  if topo0.n_node_types = node_bbs.length then do
    let topo := ext.scale topo0 node_bbs items
    let located0 : List (Option LocatedBB) := List.replicate topo.n_all_points none
    let locatedN ← placeNodes ext topo node_bbs.enum located0
    let perms0 : List (Option (List Nat)) := List.replicate topo.n_all_points none
    let permsN ← nodePerms ext topo locatedN topo.node_indices perms0
    let located ← placeEdges ext topo permsN items locatedN
    let perms ← edgePerms ext topo located topo.edge_indices permsN
    let offsets := indexOffsets located
    if (located.filterMap id).isEmpty then .error .internalError
    else do
      let intra := bbBonds offsets located
      let inter ← interBonds topo located perms offsets topo.edge_indices
      .ok { topo := topo, located := located, perms := perms, offsets := offsets,
            intra := intra, inter := inter,
            mof := { positions := ((located.filterMap id).map LocatedBB.positions).flatten,
                     bonds := intra ++ inter,
                     cell := topo.cell,
                     wrap := true } }
  else .error .inputCardinality

/-- `Builder.build`: the pipeline's emitted structure. -/
def build (ext : Externals) (topo0 : Topology) (node_bbs : List BuildingBlock)
    (edge_bbs : Option (List ((Nat × Nat) × BuildingBlock))) :
    Except BuildError MOF :=
  (buildState ext topo0 node_bbs edge_bbs).map (·.mof)

/-- Spec-side description of the zero-sum scan result: `o` is an index into
`neighbor_list[i]`, the record there passes the zero-sum test against `v`,
and no earlier record does (the scan breaks at the first hit). -/
def FirstZeroSum (topo : Topology) (i : Nat) (v : Vec3) (o : Nat) : Prop :=
  o < (topo.neighbor_list i).length ∧
  zeroSum v ((topo.neighbor_list i).getD o ⟨0, 0⟩) = true ∧
  ∀ m, m < o → zeroSum v ((topo.neighbor_list i).getD m ⟨0, 0⟩) = false

/-- Sum of the intrinsic bond counts of the located blocks (absent slots
contribute zero). -/
def intrinsicBondCount (located : List (Option LocatedBB)) : Nat :=
  (located.map (fun o => match o with
    | none => 0
    | some bb => bb.bonds.length)).sum

/-- Total atom count over the located blocks (absent slots contribute zero). -/
def totalAtomCount (located : List (Option LocatedBB)) : Nat :=
  (located.map offsetDelta).sum

/-!  Concrete instances used by the witnesses and counterexamples: a
two-node, one-edge periodic topology with one node type and, optionally, one
edge template.  The matched connection atoms sit at `(1,0,0)` and `(5,0,0)`,
so a placed edge block is centered at `(3,0,0)`, while the topology stores
the edge point at `(2,0,0)`. -/

/-- Concrete node template: two atoms on the x-axis, one intrinsic bond,
both atoms being connection points. -/
def cNodeBB : BuildingBlock :=
  ⟨[(1, 0, 0), (-1, 0, 0)], [(0, 1)], [0, 1]⟩

/-- Concrete edge template: two atoms on the x-axis, one intrinsic bond,
both atoms being connection points. -/
def cEdgeBB : BuildingBlock :=
  ⟨[(-2, 0, 0), (2, 0, 0)], [(0, 1)], [0, 1]⟩

/-- Concrete cubic cell of side 10. -/
def cCell : Mat3 := ⟨10, 0, 0, 0, 10, 0, 0, 0, 10⟩

/-- Concrete topology: nodes 0 and 1 at `(0,0,0)` and `(4,0,0)`, edge point 2
recorded at `(2,0,0)`, with reciprocal neighbor distance vectors. -/
def cTopo : Topology :=
  { n_node_types := 1,
    n_all_points := 3,
    node_indices := [0, 1],
    edge_indices := [2],
    get_node_type := fun _ => 0,
    get_edge_type := fun _ => (0, 0),
    neighbor_list := fun i =>
      if i = 0 then [⟨2, (3, 0, 0)⟩]
      else if i = 1 then [⟨2, (-1, 0, 0)⟩]
      else if i = 2 then [⟨0, (-3, 0, 0)⟩, ⟨1, (1, 0, 0)⟩]
      else [],
    positions := fun i =>
      if i = 0 then (0, 0, 0) else if i = 1 then (4, 0, 0) else (2, 0, 0),
    cell := cCell,
    local_structure := fun _ => ⟨[], []⟩ }

/-- Concrete externals: identity scaling, a locator that returns the
template's own atom positions with zero fit error, and the identity
two-point permutation. -/
def cExt : Externals :=
  { scale := fun t _ _ => t,
    locate := fun _ bb => .ok (bb.atoms, 0),
    matchPerm := fun _ _ => .ok [0, 1] }

/-- Concrete malformed topology for the missing-neighbor scenario: node 0's
only neighbor record is not reciprocal to the edge's record (their sum is
`(0,1,0)`). -/
def dTopo : Topology :=
  { cTopo with
    neighbor_list := fun i =>
      if i = 0 then [⟨2, (3, 1, 0)⟩]
      else if i = 1 then [⟨2, (-1, 0, 0)⟩]
      else if i = 2 then [⟨0, (-3, 0, 0)⟩, ⟨1, (1, 0, 0)⟩]
      else [] }

/-- Concrete malformed topology breaking the SECOND endpoint of the edge:
node 1's only neighbor record is not reciprocal to the edge's record (their
sum is `(0,1,0)`), while node 0's record is fine. -/
def d2Topo : Topology :=
  { cTopo with
    neighbor_list := fun i =>
      if i = 0 then [⟨2, (3, 0, 0)⟩]
      else if i = 1 then [⟨2, (-1, 1, 0)⟩]
      else if i = 2 then [⟨0, (-3, 0, 0)⟩, ⟨1, (1, 0, 0)⟩]
      else [] }

/-- Concrete topology whose single edge has the ordered type `(0, 1)`. -/
def eTopo : Topology := { cTopo with get_edge_type := fun _ => (0, 1) }

/-- Node 0's located block. -/
def cLocN0 : LocatedBB := ⟨[(1, 0, 0), (-1, 0, 0)], [(0, 1)], [0, 1]⟩

/-- Node 1's located block. -/
def cLocN1 : LocatedBB := ⟨[(5, 0, 0), (3, 0, 0)], [(0, 1)], [0, 1]⟩

/-- The located edge block, centered at `(3,0,0)`. -/
def cLocE : LocatedBB := ⟨[(1, 0, 0), (5, 0, 0)], [(0, 1)], [0, 1]⟩

/-- The full build state of the concrete scenario with the edge template. -/
def cState : BuildState :=
  { topo := cTopo,
    located := [some cLocN0, some cLocN1, some cLocE],
    perms := [some [0, 1], some [0, 1], some [0, 1]],
    offsets := [0, 2, 4],
    intra := [(0, 1), (2, 3), (4, 5)],
    inter := [(4, 0), (5, 2)],
    mof := { positions := [(1, 0, 0), (-1, 0, 0), (5, 0, 0), (3, 0, 0), (1, 0, 0), (5, 0, 0)],
             bonds := [(0, 1), (2, 3), (4, 5), (4, 0), (5, 2)],
             cell := cCell,
             wrap := true } }

/-- The build state of the concrete scenario without any edge template:
one direct bond `(0, 2)` between the matched node atoms. -/
def cState5 : BuildState :=
  { topo := cTopo,
    located := [some cLocN0, some cLocN1, none],
    perms := [some [0, 1], some [0, 1], none],
    offsets := [0, 2, 4],
    intra := [(0, 1), (2, 3)],
    inter := [(0, 2)],
    mof := { positions := [(1, 0, 0), (-1, 0, 0), (5, 0, 0), (3, 0, 0)],
             bonds := [(0, 1), (2, 3), (0, 2)],
             cell := cCell,
             wrap := true } }

/-- The build state over `eTopo` with an edge template keyed by the reversed
pair `(1, 0)`: the key does not match the edge type `(0, 1)`, so no edge
block is placed and the direct bond is emitted. -/
def cState9 : BuildState := { cState5 with topo := eTopo }

/-! Generic inversion and scan lemmas. -/

theorem except_bind_ok {α β : Type} {x : Except BuildError α} {f : α → Except BuildError β}
    {b : β} (h : (x >>= f) = .ok b) : ∃ a, x = .ok a ∧ f a = .ok b := by
  cases x with
  | error e => simp [Bind.bind, Except.bind] at h
  | ok a => exact ⟨a, rfl, by simpa [Bind.bind, Except.bind] using h⟩

theorem scanMatch_eq_none_iff (v : Vec3) (l : List Neighbor) :
    scanMatch v l = none ↔ ∀ n ∈ l, zeroSum v n = false := by
  induction l with
  | nil => simp [scanMatch]
  | cons n rest ih =>
    cases hz : zeroSum v n with
    | true => simp [scanMatch, hz]
    | false => simp [scanMatch, hz, ih]

theorem scanMatch_eq_some_iff (v : Vec3) (l : List Neighbor) (o : Nat) :
    scanMatch v l = some o ↔
      o < l.length ∧ zeroSum v (l.getD o ⟨0, 0⟩) = true ∧
        ∀ m, m < o → zeroSum v (l.getD m ⟨0, 0⟩) = false := by
  induction l generalizing o with
  | nil => simp [scanMatch]
  | cons n rest ih =>
    cases o with
    | zero =>
      cases hz : zeroSum v n with
      | true => simp [scanMatch, hz]
      | false => simp [scanMatch, hz]
    | succ o' =>
      cases hz : zeroSum v n with
      | true =>
        constructor
        · intro hcontra
          simp [scanMatch, hz] at hcontra
        · rintro ⟨-, -, hmin⟩
          have h0 := hmin 0 (Nat.succ_pos o')
          simp [hz] at h0
      | false =>
        simp only [scanMatch, hz, Bool.false_eq_true, if_false, Option.map_eq_some',
          List.length_cons, List.getD_cons_succ]
        constructor
        · rintro ⟨k, hk, hko⟩
          obtain ⟨h1, h2, h3⟩ := (ih k).mp hk
          have hke : k = o' := by omega
          subst hke
          refine ⟨Nat.succ_lt_succ h1, h2, ?_⟩
          intro m hm
          cases m with
          | zero => simpa using hz
          | succ m' => exact h3 m' (Nat.lt_of_succ_lt_succ hm)
        · rintro ⟨h1, h2, h3⟩
          refine ⟨o', (ih o').mpr ⟨Nat.lt_of_succ_lt_succ h1, h2, ?_⟩, rfl⟩
          intro m hm
          exact h3 (m + 1) (Nat.succ_lt_succ hm)

theorem firstZeroSum_unique {topo : Topology} {i : Nat} {v : Vec3} {o o' : Nat}
    (h : FirstZeroSum topo i v o) (h' : FirstZeroSum topo i v o') : o = o' := by
  rcases h with ⟨hlt, hget, hmin⟩
  rcases h' with ⟨hlt', hget', hmin'⟩
  rcases Nat.lt_trichotomy o o' with hc | hc | hc
  · rw [hmin' o hc] at hget
    exact Bool.noConfusion hget
  · exact hc
  · rw [hmin o' hc] at hget'
    exact Bool.noConfusion hget'

theorem scanMatch_iff_firstZeroSum (topo : Topology) (i : Nat) (v : Vec3) (o : Nat) :
    scanMatch v (topo.neighbor_list i) = some o ↔ FirstZeroSum topo i v o :=
  scanMatch_eq_some_iff v (topo.neighbor_list i) o

/-! C3 — the minimum-image wrapping step. -/

/-- C3 counterexample: a displacement whose fractional component is `2`
(magnitude above `0.5`) is wrapped only once, to `1`, which does not lie in
`[-0.5, 0.5)`; the identity cell makes the fractional conversion trivial. -/
theorem wrap_halfopen_cex :
    vecMul ((2 : ℚ), 0, 0) Mat3.id3.inv = ((2 : ℚ), 0, 0) ∧
    wrapComp 2 = 1 ∧
    (1 / 2 : ℚ) < |(2 : ℚ)| ∧
    ¬ (-(1 / 2) ≤ (1 : ℚ) ∧ (1 : ℚ) < 1 / 2) := by
  norm_num [vecMul, Mat3.inv, Mat3.det, Mat3.id3, wrapComp, Vec3.x, Vec3.y, Vec3.z,
    Prod.ext_iff]

/-- C3 amended: a fractional component whose raw value lies in
`(0.5, 1.5) ∪ [-1.5, -0.5)` is wrapped into `[-0.5, 0.5)`; components of
larger magnitude are corrected by at most one cell and may stay outside. -/
theorem wrap_minimum_image_amended (s : ℚ)
    (h : (1 / 2 < s ∧ s < 3 / 2) ∨ (-(3 / 2) ≤ s ∧ s < -(1 / 2))) :
    -(1 / 2) ≤ wrapComp s ∧ wrapComp s < 1 / 2 := by
  rcases h with ⟨h1, h2⟩ | ⟨h1, h2⟩ <;>
    simp only [wrapComp] <;> split_ifs <;> constructor <;> linarith

/-- Witness for the amended C3 at `s = 3/4`. -/
theorem wrap_minimum_image_amended_witness :
    ((1 / 2 < (3 / 4 : ℚ) ∧ (3 / 4 : ℚ) < 3 / 2) ∨
      (-(3 / 2) ≤ (3 / 4 : ℚ) ∧ (3 / 4 : ℚ) < -(1 / 2))) ∧
    (-(1 / 2) ≤ wrapComp (3 / 4) ∧ wrapComp (3 / 4) < 1 / 2) :=
  ⟨Or.inl ⟨by norm_num, by norm_num⟩,
   wrap_minimum_image_amended (3 / 4) (Or.inl ⟨by norm_num, by norm_num⟩)⟩

/-! C8 — the template-count precondition. -/

/-- C8: when the number of supplied node templates differs from
`topology.n_node_types`, the build fails with the cardinality error before
any placement and no structure is returned. -/
theorem build_input_cardinality (ext : Externals) (topo0 : Topology)
    (node_bbs : List BuildingBlock)
    (edge_bbs : Option (List ((Nat × Nat) × BuildingBlock)))
    (h : topo0.n_node_types ≠ node_bbs.length) :
    build ext topo0 node_bbs edge_bbs = .error .inputCardinality := by
  simp only [build, buildState, if_neg h]
  rfl

/-- Witness for C8: one node type but two supplied templates. -/
theorem build_input_cardinality_witness :
    cTopo.n_node_types ≠ [cNodeBB, cNodeBB].length ∧
    build cExt cTopo [cNodeBB, cNodeBB] none = .error .inputCardinality :=
  ⟨by decide, build_input_cardinality cExt cTopo [cNodeBB, cNodeBB] none (by decide)⟩

/-! Inversion of a successful pipeline run. -/

theorem buildState_ok_inv (ext : Externals) (topo0 : Topology)
    (node_bbs : List BuildingBlock)
    (edge_bbs : Option (List ((Nat × Nat) × BuildingBlock))) (st : BuildState)
    (h : buildState ext topo0 node_bbs edge_bbs = .ok st) :
    topo0.n_node_types = node_bbs.length ∧
    st.topo = ext.scale topo0 node_bbs (edge_bbs.getD []) ∧
    (∃ locatedN permsN,
      placeNodes ext st.topo node_bbs.enum
          (List.replicate st.topo.n_all_points none) = .ok locatedN ∧
      nodePerms ext st.topo locatedN st.topo.node_indices
          (List.replicate st.topo.n_all_points none) = .ok permsN ∧
      placeEdges ext st.topo permsN (edge_bbs.getD []) locatedN = .ok st.located ∧
      edgePerms ext st.topo st.located st.topo.edge_indices permsN = .ok st.perms) ∧
    st.offsets = indexOffsets st.located ∧
    st.intra = bbBonds st.offsets st.located ∧
    interBonds st.topo st.located st.perms st.offsets st.topo.edge_indices = .ok st.inter ∧
    st.mof = { positions := ((st.located.filterMap id).map LocatedBB.positions).flatten,
               bonds := st.intra ++ st.inter,
               cell := st.topo.cell,
               wrap := true } := by
  by_cases hc : topo0.n_node_types = node_bbs.length
  · simp only [buildState, if_pos hc] at h
    obtain ⟨locatedN, h1, h⟩ := except_bind_ok h
    obtain ⟨permsN, h2, h⟩ := except_bind_ok h
    obtain ⟨located, h3, h⟩ := except_bind_ok h
    obtain ⟨perms, h4, h⟩ := except_bind_ok h
    split at h
    · exact Except.noConfusion h
    · obtain ⟨inter, h5, h⟩ := except_bind_ok h
      have hst := (Except.ok.inj h).symm
      subst hst
      exact ⟨hc, rfl, ⟨locatedN, permsN, h1, h2, h3, h4⟩, rfl, rfl, h5, rfl⟩
  · simp only [buildState, if_neg hc] at h
    exact Except.noConfusion h

/-! Evaluation of the concrete scenarios. -/

theorem cRun_eq : buildState cExt cTopo [cNodeBB] (some [((0, 0), cEdgeBB)]) = .ok cState := by
  norm_num [buildState, placeNodes, placeNodesType, nodePerms, placeEdges, placeEdgesType,
    edgeGeom, find_matched_atom_indices, matchedIndexFor, scanMatch, zeroSum, Vec3.normSq,
    wrapVec, wrapComp, vecMul, Mat3.inv, Mat3.det, edgePerms, indexOffsets, offsetsFrom,
    offsetDelta, bbBonds, shiftBonds, interBonds, interBondsForEdge, centroid, setCenter,
    LocatedBB.local_structure, LocatedBB.n_atoms, cTopo, cExt, cNodeBB, cEdgeBB, cCell,
    cLocN0, cLocN1, cLocE, cState, Vec3.x, Vec3.y, Vec3.z, bind, Except.bind,
    (show List.replicate 3 (none : Option LocatedBB) = [none, none, none] from rfl),
    (show List.replicate 3 (none : Option (List Nat)) = [none, none, none] from rfl),
    List.set, List.zip, List.zipWith, List.filterMap, List.flatten, List.isEmpty]

theorem cRun5_eq : buildState cExt cTopo [cNodeBB] none = .ok cState5 := by
  norm_num [buildState, placeNodes, placeNodesType, nodePerms, placeEdges, placeEdgesType,
    edgeGeom, find_matched_atom_indices, matchedIndexFor, scanMatch, zeroSum, Vec3.normSq,
    wrapVec, wrapComp, vecMul, Mat3.inv, Mat3.det, edgePerms, indexOffsets, offsetsFrom,
    offsetDelta, bbBonds, shiftBonds, interBonds, interBondsForEdge, centroid, setCenter,
    LocatedBB.local_structure, LocatedBB.n_atoms, cTopo, cExt, cNodeBB, cEdgeBB, cCell,
    cLocN0, cLocN1, cState5, Vec3.x, Vec3.y, Vec3.z, bind, Except.bind,
    (show List.replicate 3 (none : Option LocatedBB) = [none, none, none] from rfl),
    (show List.replicate 3 (none : Option (List Nat)) = [none, none, none] from rfl),
    List.set, List.zip, List.zipWith, List.filterMap, List.flatten, List.isEmpty]

theorem cRun9_eq : buildState cExt eTopo [cNodeBB] (some [((1, 0), cEdgeBB)]) = .ok cState9 := by
  norm_num [buildState, placeNodes, placeNodesType, nodePerms, placeEdges, placeEdgesType,
    edgeGeom, find_matched_atom_indices, matchedIndexFor, scanMatch, zeroSum, Vec3.normSq,
    wrapVec, wrapComp, vecMul, Mat3.inv, Mat3.det, edgePerms, indexOffsets, offsetsFrom,
    offsetDelta, bbBonds, shiftBonds, interBonds, interBondsForEdge, centroid, setCenter,
    LocatedBB.local_structure, LocatedBB.n_atoms, cTopo, eTopo, cExt, cNodeBB, cEdgeBB, cCell,
    cLocN0, cLocN1, cState5, cState9, Vec3.x, Vec3.y, Vec3.z, bind, Except.bind,
    (show List.replicate 3 (none : Option LocatedBB) = [none, none, none] from rfl),
    (show List.replicate 3 (none : Option (List Nat)) = [none, none, none] from rfl),
    List.set, List.zip, List.zipWith, List.filterMap, List.flatten, List.isEmpty]

theorem cRun_build_eq :
    build cExt cTopo [cNodeBB] (some [((0, 0), cEdgeBB)]) = .ok cState.mof := by
  unfold build
  rw [cRun_eq]
  rfl

/-! C10 — the wrap flag of the emitted structure. -/

/-- C10: every successfully built structure carries `wrap = true`; the build
interface offers no way to produce one with the flag cleared. -/
theorem build_wrap_flag (ext : Externals) (topo0 : Topology)
    (node_bbs : List BuildingBlock)
    (edge_bbs : Option (List ((Nat × Nat) × BuildingBlock))) (mof : MOF)
    (h : build ext topo0 node_bbs edge_bbs = .ok mof) :
    mof.wrap = true := by
  unfold build at h
  cases hb : buildState ext topo0 node_bbs edge_bbs with
  | error e =>
    rw [hb] at h
    simp [Except.map] at h
  | ok st =>
    rw [hb] at h
    have hm : mof = st.mof := by
      simp only [Except.map, Except.ok.injEq] at h
      exact h.symm
    obtain ⟨-, -, -, -, -, -, hmof⟩ := buildState_ok_inv _ _ _ _ _ hb
    rw [hm, hmof]

/-- Witness for C10: the concrete successful build has `wrap = true`. -/
theorem build_wrap_flag_witness :
    build cExt cTopo [cNodeBB] (some [((0, 0), cEdgeBB)]) = .ok cState.mof ∧
    cState.mof.wrap = true :=
  ⟨cRun_build_eq,
   build_wrap_flag cExt cTopo [cNodeBB] (some [((0, 0), cEdgeBB)]) cState.mof cRun_build_eq⟩

/-! Per-edge success lemmas used by the error-handling claims. -/

theorem interBonds_ok_mem (topo : Topology) (located : List (Option LocatedBB))
    (perms : List (Option (List Nat))) (offsets : List Nat) :
    ∀ (es : List Nat) (L : List (Nat × Nat)),
      interBonds topo located perms offsets es = .ok L →
      ∀ j ∈ es, ∃ bs, interBondsForEdge topo located perms offsets j = .ok bs := by
  intro es
  induction es with
  | nil => intro L _ j hj; simp at hj
  | cons j' rest ih =>
    intro L h j hj
    simp only [interBonds] at h
    obtain ⟨b, hb, h⟩ := except_bind_ok h
    obtain ⟨bs, hbs, h⟩ := except_bind_ok h
    rcases List.mem_cons.mp hj with rfl | hj'
    · exact ⟨b, hb⟩
    · exact ih bs hbs j hj'

theorem interBondsForEdge_ok_find {topo : Topology} {located : List (Option LocatedBB)}
    {perms : List (Option (List Nat))} {offsets : List Nat} {j : Nat} {bs : List (Nat × Nat)}
    (h : interBondsForEdge topo located perms offsets j = .ok bs) :
    ∃ a, find_matched_atom_indices topo located perms j = .ok a := by
  unfold interBondsForEdge at h
  obtain ⟨a, ha, -⟩ := except_bind_ok h
  exact ⟨a, ha⟩

theorem matchedIndexFor_missing {topo : Topology} {located : List (Option LocatedBB)}
    {perms : List (Option (List Nat))} {i : Nat} {v : Vec3}
    (hfail : ∀ n ∈ topo.neighbor_list i, zeroSum v n = false) :
    matchedIndexFor topo located perms i v = .error .missingNeighborRecord := by
  unfold matchedIndexFor
  rw [(scanMatch_eq_none_iff v _).mpr hfail]

theorem find_matched_missing {topo : Topology} {located : List (Option LocatedBB)}
    {perms : List (Option (List Nat))} {e : Nat} {n1 n2 : Neighbor}
    (hnl : topo.neighbor_list e = [n1, n2])
    (hfail : ∀ n ∈ topo.neighbor_list n1.index, zeroSum n1.distance_vector n = false) :
    find_matched_atom_indices topo located perms e = .error .missingNeighborRecord := by
  unfold find_matched_atom_indices
  rw [hnl]
  simp [matchedIndexFor_missing hfail, Bind.bind, Except.bind]

/-! C6 — failure of the zero-sum neighbor scan aborts the build. -/

theorem find_matched_eq (topo : Topology) (located : List (Option LocatedBB))
    (perms : List (Option (List Nat))) (e : Nat) (n1 n2 : Neighbor)
    (hnl : topo.neighbor_list e = [n1, n2]) :
    find_matched_atom_indices topo located perms e =
      (matchedIndexFor topo located perms n1.index n1.distance_vector) >>= fun x =>
      (matchedIndexFor topo located perms n2.index n2.distance_vector) >>= fun y =>
      .ok (x, y) := by
  unfold find_matched_atom_indices
  rw [hnl]

theorem matchedIndexFor_ok_scan {topo : Topology} {located : List (Option LocatedBB)}
    {perms : List (Option (List Nat))} {i : Nat} {v : Vec3} {a : Nat}
    (h : matchedIndexFor topo located perms i v = .ok a) :
    ∃ o, scanMatch v (topo.neighbor_list i) = some o := by
  unfold matchedIndexFor at h
  cases hs : scanMatch v (topo.neighbor_list i) with
  | none =>
    rw [hs] at h
    exact Except.noConfusion h
  | some o => exact ⟨o, rfl⟩

theorem find_matched_ok_scans {topo : Topology} {located : List (Option LocatedBB)}
    {perms : List (Option (List Nat))} {e : Nat} {n1 n2 : Neighbor} {a : Nat × Nat}
    (hnl : topo.neighbor_list e = [n1, n2])
    (h : find_matched_atom_indices topo located perms e = .ok a) :
    (∃ o, scanMatch n1.distance_vector (topo.neighbor_list n1.index) = some o) ∧
    (∃ o, scanMatch n2.distance_vector (topo.neighbor_list n2.index) = some o) := by
  rw [find_matched_eq topo located perms e n1 n2 hnl] at h
  obtain ⟨a1, h1, h⟩ := except_bind_ok h
  obtain ⟨a2, h2, -⟩ := except_bind_ok h
  exact ⟨matchedIndexFor_ok_scan h1, matchedIndexFor_ok_scan h2⟩

/-- C6: when, for either endpoint of an edge, no index in that endpoint's
neighbor list passes the zero-sum tolerance test, `find_matched_atom_indices`
fails — with the missing-neighbor error whenever the first endpoint carries a
located block and a permutation (as after node placement; a failure at the
first endpoint needs nothing at all) — and the whole build returns no
structure. -/
theorem missing_neighbor_aborts (ext : Externals) (topo0 : Topology)
    (node_bbs : List BuildingBlock)
    (edge_bbs : Option (List ((Nat × Nat) × BuildingBlock)))
    (e : Nat) (n1 n2 nk : Neighbor)
    (hnl : (ext.scale topo0 node_bbs (edge_bbs.getD [])).neighbor_list e = [n1, n2])
    (hk : nk = n1 ∨ nk = n2)
    (hfail : ∀ n ∈ (ext.scale topo0 node_bbs (edge_bbs.getD [])).neighbor_list nk.index,
      zeroSum nk.distance_vector n = false)
    (he : e ∈ (ext.scale topo0 node_bbs (edge_bbs.getD [])).edge_indices) :
    (∀ located perms, ∃ err,
      find_matched_atom_indices (ext.scale topo0 node_bbs (edge_bbs.getD []))
        located perms e = .error err) ∧
    (∀ located perms bb1 p1,
      located.getD n1.index none = some bb1 →
      perms.getD n1.index none = some p1 →
      find_matched_atom_indices (ext.scale topo0 node_bbs (edge_bbs.getD []))
        located perms e = .error .missingNeighborRecord) ∧
    ∀ m, build ext topo0 node_bbs edge_bbs ≠ .ok m := by
  have hscan : scanMatch nk.distance_vector
      ((ext.scale topo0 node_bbs (edge_bbs.getD [])).neighbor_list nk.index) = none :=
    (scanMatch_eq_none_iff _ _).mpr hfail
  refine ⟨?_, ?_, ?_⟩
  · intro located perms
    cases hf : find_matched_atom_indices (ext.scale topo0 node_bbs (edge_bbs.getD []))
        located perms e with
    | error err => exact ⟨err, rfl⟩
    | ok a =>
      exfalso
      obtain ⟨⟨o1, ho1⟩, ⟨o2, ho2⟩⟩ := find_matched_ok_scans hnl hf
      rcases hk with rfl | rfl
      · rw [hscan] at ho1
        exact Option.noConfusion ho1
      · rw [hscan] at ho2
        exact Option.noConfusion ho2
  · intro located perms bb1 p1 hb1 hp1
    rw [find_matched_eq _ _ _ _ _ _ hnl]
    unfold matchedIndexFor
    rcases hk with rfl | rfl
    · rw [hscan]
      rfl
    · rw [hscan]
      cases hs1 : scanMatch n1.distance_vector
          ((ext.scale topo0 node_bbs (edge_bbs.getD [])).neighbor_list n1.index) with
      | none => rfl
      | some o =>
        rw [hb1, hp1]
        rfl
  · intro m hm
    unfold build at hm
    cases hb : buildState ext topo0 node_bbs edge_bbs with
    | error err =>
      rw [hb] at hm
      simp [Except.map] at hm
    | ok st =>
      obtain ⟨-, hT, -, -, -, hIB, -⟩ := buildState_ok_inv _ _ _ _ _ hb
      obtain ⟨bs, hbs⟩ :=
        interBonds_ok_mem st.topo st.located st.perms st.offsets _ _ hIB e
          (by rw [hT]; exact he)
      obtain ⟨a, ha⟩ := interBondsForEdge_ok_find hbs
      rw [hT] at ha
      obtain ⟨⟨o1, ho1⟩, ⟨o2, ho2⟩⟩ := find_matched_ok_scans hnl ha
      rcases hk with rfl | rfl
      · rw [hscan] at ho1
        exact Option.noConfusion ho1
      · rw [hscan] at ho2
        exact Option.noConfusion ho2

/-- Witness for C6 at both endpoints: `dTopo` breaks the scan at the FIRST
endpoint (node 0) of the edge, `d2Topo` at the SECOND endpoint (node 1); in
both cases `find_matched_atom_indices` fails — with the missing-neighbor
error once the first endpoint carries a block and a permutation — and the
build aborts. -/
theorem missing_neighbor_aborts_witness :
    (((cExt.scale dTopo [cNodeBB] ((some [((0, 0), cEdgeBB)]).getD [])).neighbor_list 2 =
        [⟨0, (-3, 0, 0)⟩, ⟨1, (1, 0, 0)⟩]) ∧
      (∀ n ∈ (cExt.scale dTopo [cNodeBB]
          ((some [((0, 0), cEdgeBB)]).getD [])).neighbor_list (0 : Nat),
        zeroSum (((-3 : ℚ), 0, 0) : Vec3) n = false) ∧
      (∀ located perms, ∃ err,
        find_matched_atom_indices (cExt.scale dTopo [cNodeBB]
            ((some [((0, 0), cEdgeBB)]).getD [])) located perms 2 = .error err) ∧
      (∀ located perms (bb1 : LocatedBB) (p1 : List Nat),
        located.getD (0 : Nat) none = some bb1 →
        perms.getD (0 : Nat) none = some p1 →
        find_matched_atom_indices (cExt.scale dTopo [cNodeBB]
            ((some [((0, 0), cEdgeBB)]).getD [])) located perms 2 =
          .error .missingNeighborRecord) ∧
      ∀ m, build cExt dTopo [cNodeBB] (some [((0, 0), cEdgeBB)]) ≠ .ok m) ∧
    (((cExt.scale d2Topo [cNodeBB] ((some [((0, 0), cEdgeBB)]).getD [])).neighbor_list 2 =
        [⟨0, (-3, 0, 0)⟩, ⟨1, (1, 0, 0)⟩]) ∧
      (∀ n ∈ (cExt.scale d2Topo [cNodeBB]
          ((some [((0, 0), cEdgeBB)]).getD [])).neighbor_list (1 : Nat),
        zeroSum (((1 : ℚ), 0, 0) : Vec3) n = false) ∧
      (∀ located perms, ∃ err,
        find_matched_atom_indices (cExt.scale d2Topo [cNodeBB]
            ((some [((0, 0), cEdgeBB)]).getD [])) located perms 2 = .error err) ∧
      (∀ located perms (bb1 : LocatedBB) (p1 : List Nat),
        located.getD (0 : Nat) none = some bb1 →
        perms.getD (0 : Nat) none = some p1 →
        find_matched_atom_indices (cExt.scale d2Topo [cNodeBB]
            ((some [((0, 0), cEdgeBB)]).getD [])) located perms 2 =
          .error .missingNeighborRecord) ∧
      ∀ m, build cExt d2Topo [cNodeBB] (some [((0, 0), cEdgeBB)]) ≠ .ok m) := by
  have hfail1 : ∀ n ∈ (cExt.scale dTopo [cNodeBB]
      ((some [((0, 0), cEdgeBB)]).getD [])).neighbor_list (0 : Nat),
      zeroSum (((-3 : ℚ), 0, 0) : Vec3) n = false := by
    intro n hn
    simp only [cExt, dTopo, cTopo] at hn
    norm_num at hn
    subst hn
    norm_num [zeroSum, Vec3.normSq, Vec3.x, Vec3.y, Vec3.z]
  have hfail2 : ∀ n ∈ (cExt.scale d2Topo [cNodeBB]
      ((some [((0, 0), cEdgeBB)]).getD [])).neighbor_list (1 : Nat),
      zeroSum (((1 : ℚ), 0, 0) : Vec3) n = false := by
    intro n hn
    simp only [cExt, d2Topo, cTopo] at hn
    norm_num at hn
    subst hn
    norm_num [zeroSum, Vec3.normSq, Vec3.x, Vec3.y, Vec3.z]
  obtain ⟨c1a, c1b, c1c⟩ := missing_neighbor_aborts cExt dTopo [cNodeBB]
    (some [((0, 0), cEdgeBB)]) 2 ⟨0, (-3, 0, 0)⟩ ⟨1, (1, 0, 0)⟩ ⟨0, (-3, 0, 0)⟩
    rfl (Or.inl rfl) hfail1 (by simp [cExt, dTopo, cTopo])
  obtain ⟨c2a, c2b, c2c⟩ := missing_neighbor_aborts cExt d2Topo [cNodeBB]
    (some [((0, 0), cEdgeBB)]) 2 ⟨0, (-3, 0, 0)⟩ ⟨1, (1, 0, 0)⟩ ⟨1, (1, 0, 0)⟩
    rfl (Or.inr rfl) hfail2 (by simp [cExt, d2Topo, cTopo])
  exact ⟨⟨rfl, hfail1, c1a, c1b, c1c⟩, ⟨rfl, hfail2, c2a, c2b, c2c⟩⟩

/-! C1 — characterisation of `find_matched_atom_indices`. -/

/-- C1: for an edge whose two endpoints both carry located blocks and
permutations, `find_matched_atom_indices` returns `(a1, a2)` exactly when,
for each endpoint, there is a first index `o` in that endpoint's neighbor
list whose record is zero-sum reciprocal (within `1e-3`) to the edge's own
record for that endpoint, and the returned index is entry `o` of the
endpoint block's connection points reordered by the endpoint's
permutation. -/
theorem find_matched_spec (topo : Topology) (located : List (Option LocatedBB))
    (perms : List (Option (List Nat))) (e : Nat) (n1 n2 : Neighbor)
    (bb1 bb2 : LocatedBB) (p1 p2 : List Nat) (a1 a2 : Nat)
    (hnl : topo.neighbor_list e = [n1, n2])
    (hb1 : located.getD n1.index none = some bb1)
    (hb2 : located.getD n2.index none = some bb2)
    (hp1 : perms.getD n1.index none = some p1)
    (hp2 : perms.getD n2.index none = some p2) :
    find_matched_atom_indices topo located perms e = .ok (a1, a2) ↔
      (∃ o1, FirstZeroSum topo n1.index n1.distance_vector o1 ∧
        a1 = bb1.connection_point_indices.getD (p1.getD o1 0) 0) ∧
      (∃ o2, FirstZeroSum topo n2.index n2.distance_vector o2 ∧
        a2 = bb2.connection_point_indices.getD (p2.getD o2 0) 0) := by
  rw [find_matched_eq topo located perms e n1 n2 hnl]
  unfold matchedIndexFor
  rw [hb1, hb2, hp1, hp2]
  cases hs1 : scanMatch n1.distance_vector (topo.neighbor_list n1.index) with
  | none =>
    simp only [hs1, Bind.bind, Except.bind]
    constructor
    · intro hcontra
      exact Except.noConfusion hcontra
    · rintro ⟨⟨o1, hfz, -⟩, -⟩
      rw [(scanMatch_iff_firstZeroSum topo n1.index _ o1).mpr hfz] at hs1
      exact Option.noConfusion hs1
  | some o1 =>
    cases hs2 : scanMatch n2.distance_vector (topo.neighbor_list n2.index) with
    | none =>
      simp only [hs1, hs2, Bind.bind, Except.bind]
      constructor
      · intro hcontra
        exact Except.noConfusion hcontra
      · rintro ⟨-, ⟨o2, hfz, -⟩⟩
        rw [(scanMatch_iff_firstZeroSum topo n2.index _ o2).mpr hfz] at hs2
        exact Option.noConfusion hs2
    | some o2 =>
      simp only [hs1, hs2, Bind.bind, Except.bind, Except.ok.injEq, Prod.mk.injEq]
      constructor
      · rintro ⟨ha1, ha2⟩
        exact ⟨⟨o1, (scanMatch_iff_firstZeroSum topo n1.index _ o1).mp hs1, ha1.symm⟩,
               ⟨o2, (scanMatch_iff_firstZeroSum topo n2.index _ o2).mp hs2, ha2.symm⟩⟩
      · rintro ⟨⟨o1', hfz1, ha1⟩, ⟨o2', hfz2, ha2⟩⟩
        have e1 : o1' = o1 :=
          firstZeroSum_unique hfz1 ((scanMatch_iff_firstZeroSum topo n1.index _ o1).mp hs1)
        have e2 : o2' = o2 :=
          firstZeroSum_unique hfz2 ((scanMatch_iff_firstZeroSum topo n2.index _ o2).mp hs2)
        subst e1
        subst e2
        exact ⟨ha1.symm, ha2.symm⟩

/-- Witness for C1 on the concrete scenario: the matched pair is `(0, 0)`
and the characterisation holds with first zero-sum indices `0` and `0`. -/
theorem find_matched_spec_witness :
    (cTopo.neighbor_list 2 = [⟨0, (-3, 0, 0)⟩, ⟨1, (1, 0, 0)⟩]) ∧
    (([some cLocN0, some cLocN1, some cLocE] :
        List (Option LocatedBB)).getD (0 : Nat) none = some cLocN0) ∧
    (([some cLocN0, some cLocN1, some cLocE] :
        List (Option LocatedBB)).getD (1 : Nat) none = some cLocN1) ∧
    (find_matched_atom_indices cTopo [some cLocN0, some cLocN1, some cLocE]
        [some [0, 1], some [0, 1], some [0, 1]] 2 = .ok (0, 0) ↔
      (∃ o1, FirstZeroSum cTopo (Neighbor.mk 0 (-3, 0, 0)).index
          (Neighbor.mk 0 (-3, 0, 0)).distance_vector o1 ∧
        0 = cLocN0.connection_point_indices.getD (([0, 1] : List Nat).getD o1 0) 0) ∧
      (∃ o2, FirstZeroSum cTopo (Neighbor.mk 1 (1, 0, 0)).index
          (Neighbor.mk 1 (1, 0, 0)).distance_vector o2 ∧
        0 = cLocN1.connection_point_indices.getD (([0, 1] : List Nat).getD o2 0) 0)) :=
  ⟨rfl, rfl, rfl,
   find_matched_spec cTopo [some cLocN0, some cLocN1, some cLocE]
     [some [0, 1], some [0, 1], some [0, 1]] 2
     ⟨0, (-3, 0, 0)⟩ ⟨1, (1, 0, 0)⟩ cLocN0 cLocN1 [0, 1] [0, 1] 0 0
     rfl rfl rfl rfl rfl⟩

/-! C4 — the index-offset prefix sums. -/

theorem offsetsFrom_length (acc : Nat) (l : List (Option LocatedBB)) :
    (offsetsFrom acc l).length = l.length + 1 := by
  induction l generalizing acc with
  | nil => rfl
  | cons o rest ih => simp [offsetsFrom, ih]

theorem offsetsFrom_getD_zero (acc : Nat) (l : List (Option LocatedBB)) :
    (offsetsFrom acc l).getD 0 0 = acc := by
  cases l <;> rfl

theorem offsetsFrom_getD_succ (l : List (Option LocatedBB)) (acc i : Nat)
    (h : i < l.length) :
    (offsetsFrom acc l).getD (i + 1) 0 =
      (offsetsFrom acc l).getD i 0 + offsetDelta (l.getD i none) := by
  induction l generalizing acc i with
  | nil => simp at h
  | cons o rest ih =>
    cases i with
    | zero =>
      rw [offsetsFrom, List.getD_cons_succ, List.getD_cons_zero, List.getD_cons_zero,
        offsetsFrom_getD_zero]
    | succ i' =>
      simpa [offsetsFrom] using ih (acc + offsetDelta o) i' (Nat.lt_of_succ_lt_succ h)

theorem offsetsFrom_head (acc : Nat) (l : List (Option LocatedBB)) :
    (offsetsFrom acc l).head? = some acc := by
  cases l <;> rfl

theorem offsetsFrom_chain (acc : Nat) (l : List (Option LocatedBB)) :
    List.Chain' (· ≤ ·) (offsetsFrom acc l) := by
  induction l generalizing acc with
  | nil => simp [offsetsFrom]
  | cons o rest ih =>
    rw [offsetsFrom]
    refine List.chain'_cons'.mpr ⟨?_, ih (acc + offsetDelta o)⟩
    intro y hy
    rw [offsetsFrom_head] at hy
    cases hy
    exact Nat.le_add_right acc _

theorem offsetsFrom_getLast? (acc : Nat) (l : List (Option LocatedBB)) :
    (offsetsFrom acc l).getLast? = some (acc + (l.map offsetDelta).sum) := by
  induction l generalizing acc with
  | nil => simp [offsetsFrom]
  | cons o rest ih =>
    rw [offsetsFrom]
    cases hr : offsetsFrom (acc + offsetDelta o) rest with
    | nil =>
      have := offsetsFrom_length (acc + offsetDelta o) rest
      rw [hr] at this
      simp at this
    | cons y ys =>
      rw [List.getLast?_cons_cons, ← hr, ih (acc + offsetDelta o)]
      simp [Nat.add_assoc]

theorem dropLast_getD (l : List (Option LocatedBB)) (i : Nat) (h : i + 1 < l.length) :
    l.dropLast.getD i none = l.getD i none := by
  induction l generalizing i with
  | nil => simp at h
  | cons a rest ih =>
    cases rest with
    | nil => simp at h
    | cons b rest' =>
      cases i with
      | zero => rfl
      | succ i' =>
        have hih := ih (i := i') (by simpa using Nat.lt_of_succ_lt_succ h)
        simpa [List.dropLast] using hih

theorem sum_map_dropLast (l : List (Option LocatedBB)) (h : l ≠ []) :
    (l.map offsetDelta).sum =
      (l.dropLast.map offsetDelta).sum + offsetDelta (l.getLastD none) := by
  induction l with
  | nil => cases h rfl
  | cons a rest ih =>
    cases rest with
    | nil => simp
    | cons b rest' =>
      have hih := ih (by simp)
      simp only [List.dropLast, List.map_cons, List.sum_cons, List.getLastD_cons] at hih ⊢
      omega

/-- C4 amended: the offsets start at zero, follow the prefix-sum recurrence
with absent blocks contributing zero, are non-negative and non-decreasing,
and the final offset plus the LAST SLOT's atom count (zero when the last
point has no block) equals the total atom count; the original claim's
"last existing block" form fails when the last point has no block. -/
theorem index_offsets_spec (located : List (Option LocatedBB)) (h : located ≠ []) :
    (indexOffsets located).length = located.length ∧
    (indexOffsets located).getD 0 0 = 0 ∧
    (∀ i, i + 1 < located.length →
      (indexOffsets located).getD (i + 1) 0 =
        (indexOffsets located).getD i 0 + offsetDelta (located.getD i none)) ∧
    (∀ x ∈ indexOffsets located, 0 ≤ x) ∧
    List.Chain' (· ≤ ·) (indexOffsets located) ∧
    (indexOffsets located).getLastD 0 + offsetDelta (located.getLastD none) =
      totalAtomCount located := by
  have hlen : located.dropLast.length = located.length - 1 := List.length_dropLast located
  have hpos : 0 < located.length := List.length_pos.mpr h
  refine ⟨?_, offsetsFrom_getD_zero 0 _, ?_, fun x _ => Nat.zero_le x,
    offsetsFrom_chain 0 _, ?_⟩
  · rw [indexOffsets, offsetsFrom_length, hlen]
    omega
  · intro i hi
    rw [indexOffsets, offsetsFrom_getD_succ located.dropLast 0 i (by omega),
      dropLast_getD located i hi]
  · have hl : (indexOffsets located).getLastD 0 =
        0 + (located.dropLast.map offsetDelta).sum := by
      rw [indexOffsets]
      have := offsetsFrom_getLast? 0 located.dropLast
      cases hg : (offsetsFrom 0 located.dropLast).getLast? with
      | none => rw [hg] at this; exact Option.noConfusion this
      | some y =>
        rw [hg] at this
        have hy := Option.some.inj this
        calc (offsetsFrom 0 located.dropLast).getLastD 0
            = ((offsetsFrom 0 located.dropLast).getLast?).getD 0 := by
              rw [List.getLastD_eq_getLast?]
          _ = y := by rw [hg]; rfl
          _ = _ := hy
    rw [hl, totalAtomCount, sum_map_dropLast located h]
    omega

/-- Witness for the amended C4 on the concrete no-edge-template run's located
list, whose last slot is absent. -/
theorem index_offsets_spec_witness :
    ([some cLocN0, some cLocN1, none] : List (Option LocatedBB)) ≠ [] ∧
    ((indexOffsets [some cLocN0, some cLocN1, none]).length =
        ([some cLocN0, some cLocN1, none] : List (Option LocatedBB)).length ∧
      (indexOffsets [some cLocN0, some cLocN1, none]).getD 0 0 = 0 ∧
      (∀ i, i + 1 < ([some cLocN0, some cLocN1, none] : List (Option LocatedBB)).length →
        (indexOffsets [some cLocN0, some cLocN1, none]).getD (i + 1) 0 =
          (indexOffsets [some cLocN0, some cLocN1, none]).getD i 0 +
            offsetDelta (([some cLocN0, some cLocN1, none] :
              List (Option LocatedBB)).getD i none)) ∧
      (∀ x ∈ indexOffsets [some cLocN0, some cLocN1, none], 0 ≤ x) ∧
      List.Chain' (· ≤ ·) (indexOffsets [some cLocN0, some cLocN1, none]) ∧
      (indexOffsets [some cLocN0, some cLocN1, none]).getLastD 0 +
          offsetDelta (([some cLocN0, some cLocN1, none] :
            List (Option LocatedBB)).getLastD none) =
        totalAtomCount [some cLocN0, some cLocN1, none]) :=
  ⟨by simp, index_offsets_spec [some cLocN0, some cLocN1, none] (by simp)⟩

/-- C4 counterexample: the concrete no-edge-template build leaves the last
point without a block; there the final offset (4) plus the last existing
block's atom count (2) is 6, while the assembled structure holds 4 atoms. -/
theorem index_offsets_last_existing_cex :
    ((buildState cExt cTopo [cNodeBB] none).map (·.located)).toOption =
      some [some cLocN0, some cLocN1, none] ∧
    (indexOffsets [some cLocN0, some cLocN1, none]).getLastD 0 +
        offsetDelta (([some cLocN0, some cLocN1, none].filterMap id).getLast?) ≠
      totalAtomCount [some cLocN0, some cLocN1, none] ∧
    totalAtomCount [some cLocN0, some cLocN1, none] =
      (([some cLocN0, some cLocN1, none].filterMap id).map LocatedBB.positions).flatten.length := by
  refine ⟨by rw [cRun5_eq]; rfl, by decide, by decide⟩

/-! Stability of the located-block slots across the placement loops. -/

theorem getD_set_ne (l : List (Option LocatedBB)) (j i : Nat) (x : Option LocatedBB)
    (hne : i ≠ j) : (l.set j x).getD i none = l.getD i none := by
  simp [List.getD_eq_getElem?_getD, List.getElem?_set_ne (Ne.symm hne)]

theorem getD_set_self_cases (l : List (Option LocatedBB)) (j : Nat) (x : Option LocatedBB) :
    (l.set j x).getD j none = if j < l.length then x else none := by
  by_cases h : j < l.length
  · simp [List.getD_eq_getElem?_getD, List.getElem?_set_self h, h]
  · have hnone : l[j]? = none := by
      simp [List.getElem?_eq_none (Nat.le_of_not_lt h)]
    simp [List.getD_eq_getElem?_getD, List.getElem?_set_self', hnone, h]

theorem getD_replicate_none (n i : Nat) :
    (List.replicate n (none : Option LocatedBB)).getD i none = none := by
  induction n generalizing i with
  | zero => rfl
  | succ n ih =>
    cases i with
    | zero => rfl
    | succ i' => exact ih i'

theorem placeNodesType_stable (ext : Externals) (topo : Topology) (t : Nat)
    (bb : BuildingBlock) :
    ∀ (is : List Nat) (located located' : List (Option LocatedBB)),
      placeNodesType ext topo t bb is located = .ok located' →
      ∀ i, i ∉ is → located'.getD i none = located.getD i none := by
  intro is
  induction is with
  | nil =>
    intro located located' h i _
    rw [← Except.ok.inj h]
  | cons j rest ih =>
    intro located located' h i hi
    simp only [placeNodesType] at h
    split at h
    · obtain ⟨lr, hlr, h⟩ := except_bind_ok h
      have hrest := ih _ _ h i (fun hmem => hi (List.mem_cons_of_mem _ hmem))
      rw [hrest, getD_set_ne _ _ _ _
        (fun hij => hi (by rw [hij]; exact List.mem_cons_self j rest))]
    · exact ih _ _ h i (fun hmem => hi (List.mem_cons_of_mem _ hmem))

theorem placeNodes_stable (ext : Externals) (topo : Topology) :
    ∀ (tbs : List (Nat × BuildingBlock)) (located located' : List (Option LocatedBB)),
      placeNodes ext topo tbs located = .ok located' →
      ∀ i, i ∉ topo.node_indices → located'.getD i none = located.getD i none := by
  intro tbs
  induction tbs with
  | nil =>
    intro located located' h i _
    rw [← Except.ok.inj h]
  | cons tb rest ih =>
    intro located located' h i hi
    obtain ⟨t, bb⟩ := tb
    simp only [placeNodes] at h
    obtain ⟨located1, h1, h⟩ := except_bind_ok h
    rw [ih _ _ h i hi, placeNodesType_stable ext topo t bb _ _ _ h1 i hi]

theorem placeEdgesType_stable (ext : Externals) (topo : Topology)
    (perms : List (Option (List Nat))) (t : Nat × Nat) (ebb : BuildingBlock) :
    ∀ (es : List Nat) (located located' : List (Option LocatedBB)),
      placeEdgesType ext topo perms t ebb es located = .ok located' →
      ∀ i, (i ∉ es ∨ topo.get_edge_type i ≠ t) →
        located'.getD i none = located.getD i none := by
  intro es
  induction es with
  | nil =>
    intro located located' h i _
    rw [← Except.ok.inj h]
  | cons e rest ih =>
    intro located located' h i hi
    have hi' : i ∉ rest ∨ topo.get_edge_type i ≠ t := by
      rcases hi with hi | hi
      · exact Or.inl (fun hmem => hi (List.mem_cons_of_mem _ hmem))
      · exact Or.inr hi
    simp only [placeEdgesType] at h
    split at h
    · obtain ⟨g, hg, h⟩ := except_bind_ok h
      obtain ⟨lr, hlr, h⟩ := except_bind_ok h
      have hie : i ≠ e := by
        intro hie
        subst hie
        rcases hi with hi | hi
        · exact hi (List.mem_cons_self i rest)
        · exact hi (by assumption)
      rw [ih _ _ h i hi', getD_set_ne _ _ _ _ hie]
    · exact ih _ _ h i hi'

theorem placeEdges_stable (ext : Externals) (topo : Topology)
    (perms : List (Option (List Nat))) :
    ∀ (items : List ((Nat × Nat) × BuildingBlock))
      (located located' : List (Option LocatedBB)),
      placeEdges ext topo perms items located = .ok located' →
      ∀ i, (i ∉ topo.edge_indices ∨ ∀ p ∈ items, p.1 ≠ topo.get_edge_type i) →
        located'.getD i none = located.getD i none := by
  intro items
  induction items with
  | nil =>
    intro located located' h i _
    rw [← Except.ok.inj h]
  | cons item rest ih =>
    intro located located' h i hi
    obtain ⟨t, ebb⟩ := item
    simp only [placeEdges] at h
    obtain ⟨located1, h1, h⟩ := except_bind_ok h
    have hi1 : i ∉ topo.edge_indices ∨ topo.get_edge_type i ≠ t := by
      rcases hi with hi | hi
      · exact Or.inl hi
      · exact Or.inr (fun ht => hi (t, ebb) (List.mem_cons_self _ rest) ht.symm)
    have hirest : i ∉ topo.edge_indices ∨ ∀ p ∈ rest, p.1 ≠ topo.get_edge_type i := by
      rcases hi with hi | hi
      · exact Or.inl hi
      · exact Or.inr (fun p hp => hi p (List.mem_cons_of_mem _ hp))
    rw [ih _ _ h i hirest, placeEdgesType_stable ext topo perms t ebb _ _ _ h1 i hi1]

/-- Every block written by the node-placement loop is a `setCenter` at the
topology position of its own point. -/
theorem placeNodesType_shape (ext : Externals) (topo : Topology) (t : Nat)
    (bb : BuildingBlock) :
    ∀ (is : List Nat) (located located' : List (Option LocatedBB)),
      placeNodesType ext topo t bb is located = .ok located' →
      ∀ i x, located'.getD i none = some x →
        located.getD i none = some x ∨ ∃ y, x = setCenter (topo.positions i) y := by
  intro is
  induction is with
  | nil =>
    intro located located' h i x hx
    rw [← Except.ok.inj h] at hx
    exact Or.inl hx
  | cons j rest ih =>
    intro located located' h i x hx
    simp only [placeNodesType] at h
    split at h
    · obtain ⟨lr, hlr, h⟩ := except_bind_ok h
      rcases ih _ _ h i x hx with hset | hshape
      · by_cases hij : i = j
        · subst hij
          rw [getD_set_self_cases] at hset
          split at hset
          · exact Or.inr ⟨_, (Option.some.inj hset).symm⟩
          · exact Option.noConfusion hset
        · rw [getD_set_ne _ _ _ _ hij] at hset
          exact Or.inl hset
      · exact Or.inr hshape
    · exact ih _ _ h i x hx

theorem placeNodes_shape (ext : Externals) (topo : Topology) :
    ∀ (tbs : List (Nat × BuildingBlock)) (located located' : List (Option LocatedBB)),
      placeNodes ext topo tbs located = .ok located' →
      ∀ i x, located'.getD i none = some x →
        located.getD i none = some x ∨ ∃ y, x = setCenter (topo.positions i) y := by
  intro tbs
  induction tbs with
  | nil =>
    intro located located' h i x hx
    rw [← Except.ok.inj h] at hx
    exact Or.inl hx
  | cons tb rest ih =>
    intro located located' h i x hx
    obtain ⟨t, bb⟩ := tb
    simp only [placeNodes] at h
    obtain ⟨located1, h1, h⟩ := except_bind_ok h
    rcases ih _ _ h i x hx with hmid | hshape
    · exact placeNodesType_shape ext topo t bb _ _ _ h1 i x hmid
    · exact Or.inr hshape

/-- A located edge slot that the edge-mapping does not key stays empty,
and the build leaves `none` there. -/
theorem located_edge_none (ext : Externals) (topo0 : Topology)
    (node_bbs : List BuildingBlock)
    (edge_bbs : Option (List ((Nat × Nat) × BuildingBlock))) (st : BuildState) (e : Nat)
    (h : buildState ext topo0 node_bbs edge_bbs = .ok st)
    (hen : e ∉ st.topo.node_indices)
    (hlk : ∀ p ∈ (edge_bbs.getD [] : List ((Nat × Nat) × BuildingBlock)),
      p.1 ≠ st.topo.get_edge_type e) :
    st.located.getD e none = none := by
  obtain ⟨-, -, ⟨locatedN, permsN, h1, -, h3, -⟩, -, -, -, -⟩ :=
    buildState_ok_inv _ _ _ _ _ h
  rw [placeEdges_stable ext st.topo permsN _ _ _ h3 e (Or.inr hlk),
    placeNodes_stable ext st.topo _ _ _ h1 e hen, getD_replicate_none]

/-! Inversion of the per-edge bond emission. -/

theorem interBondsForEdge_direct {topo : Topology} {located : List (Option LocatedBB)}
    {perms : List (Option (List Nat))} {offsets : List Nat} {j : Nat}
    {bs : List (Nat × Nat)}
    (hnone : located.getD j none = none)
    (h : interBondsForEdge topo located perms offsets j = .ok bs) :
    ∃ a1 a2 n1 n2, topo.neighbor_list j = [n1, n2] ∧
      find_matched_atom_indices topo located perms j = .ok (a1, a2) ∧
      bs = [(a1 + offsets.getD n1.index 0, a2 + offsets.getD n2.index 0)] := by
  unfold interBondsForEdge at h
  obtain ⟨a, ha, h⟩ := except_bind_ok h
  obtain ⟨a1, a2⟩ := a
  cases hnl : topo.neighbor_list j with
  | nil =>
    rw [hnl] at h
    exact Except.noConfusion h
  | cons n1 rest =>
    cases rest with
    | nil =>
      rw [hnl] at h
      exact Except.noConfusion h
    | cons n2 rest2 =>
      cases rest2 with
      | cons n3 rest3 =>
        rw [hnl] at h
        exact Except.noConfusion h
      | nil =>
        rw [hnl] at h
        simp only [hnone, Except.ok.injEq] at h
        exact ⟨a1, a2, n1, n2, rfl, ha, h.symm⟩

theorem interBondsForEdge_block {topo : Topology} {located : List (Option LocatedBB)}
    {perms : List (Option (List Nat))} {offsets : List Nat} {j : Nat}
    {bs : List (Nat × Nat)} {bb : LocatedBB}
    (hsome : located.getD j none = some bb)
    (h : interBondsForEdge topo located perms offsets j = .ok bs) :
    ∃ a1 a2 n1 n2 p c1 c2, topo.neighbor_list j = [n1, n2] ∧
      find_matched_atom_indices topo located perms j = .ok (a1, a2) ∧
      perms.getD j none = some p ∧
      p.map (fun k => bb.connection_point_indices.getD k 0) = [c1, c2] ∧
      bs = [(c1 + offsets.getD j 0, a1 + offsets.getD n1.index 0),
            (c2 + offsets.getD j 0, a2 + offsets.getD n2.index 0)] := by
  unfold interBondsForEdge at h
  obtain ⟨a, ha, h⟩ := except_bind_ok h
  obtain ⟨a1, a2⟩ := a
  cases hnl : topo.neighbor_list j with
  | nil =>
    rw [hnl] at h
    exact Except.noConfusion h
  | cons n1 rest =>
    cases rest with
    | nil =>
      rw [hnl] at h
      exact Except.noConfusion h
    | cons n2 rest2 =>
      cases rest2 with
      | cons n3 rest3 =>
        rw [hnl] at h
        exact Except.noConfusion h
      | nil =>
        rw [hnl] at h
        simp only [hsome] at h
        cases hp : perms.getD j none with
        | none =>
          simp only [hp] at h
          exact Except.noConfusion h
        | some p =>
          simp only [hp] at h
          cases hm : p.map (fun k => bb.connection_point_indices.getD k 0) with
          | nil =>
            simp only [hm] at h
            exact Except.noConfusion h
          | cons c1 r =>
            cases r with
            | nil =>
              simp only [hm] at h
              exact Except.noConfusion h
            | cons c2 r2 =>
              cases r2 with
              | cons c3 r3 =>
                simp only [hm] at h
                exact Except.noConfusion h
              | nil =>
                simp only [hm, Except.ok.injEq] at h
                exact ⟨a1, a2, n1, n2, p, c1, c2, rfl, ha, rfl, hm, h.symm⟩

theorem interBondsForEdge_length {topo : Topology} {located : List (Option LocatedBB)}
    {perms : List (Option (List Nat))} {offsets : List Nat} {j : Nat}
    {bs : List (Nat × Nat)}
    (h : interBondsForEdge topo located perms offsets j = .ok bs) :
    bs.length = if (located.getD j none).isSome then 2 else 1 := by
  cases hl : located.getD j none with
  | none =>
    obtain ⟨a1, a2, n1, n2, -, -, hbs⟩ := interBondsForEdge_direct hl h
    simp [hbs, hl]
  | some bb =>
    obtain ⟨a1, a2, n1, n2, p, c1, c2, -, -, -, -, hbs⟩ := interBondsForEdge_block hl h
    simp [hbs, hl]

theorem interBonds_length (topo : Topology) (located : List (Option LocatedBB))
    (perms : List (Option (List Nat))) (offsets : List Nat) :
    ∀ (es : List Nat) (L : List (Nat × Nat)),
      interBonds topo located perms offsets es = .ok L →
      L.length = 2 * es.countP (fun e => (located.getD e none).isSome) +
        es.countP (fun e => !(located.getD e none).isSome) := by
  intro es
  induction es with
  | nil =>
    intro L h
    rw [← Except.ok.inj h]
    simp
  | cons j rest ih =>
    intro L h
    simp only [interBonds] at h
    obtain ⟨b, hb, h⟩ := except_bind_ok h
    obtain ⟨bs, hbs, h⟩ := except_bind_ok h
    rw [← Except.ok.inj h, List.length_append, interBondsForEdge_length hb, ih _ hbs,
      List.countP_cons, List.countP_cons]
    cases hsome : (located.getD j none).isSome <;> simp [hsome] <;> omega

theorem bbBonds_length :
    ∀ (located : List (Option LocatedBB)) (offsets : List Nat),
      located.length ≤ offsets.length →
      (bbBonds offsets located).length = intrinsicBondCount located := by
  intro located
  induction located with
  | nil =>
    intro offsets _
    simp [bbBonds, intrinsicBondCount]
  | cons o rest ih =>
    intro offsets hle
    cases offsets with
    | nil => simp at hle
    | cons off offs =>
      have htail := ih offs (by simpa using hle)
      cases o with
      | none =>
        have hstep : bbBonds (off :: offs) (none :: rest) = bbBonds offs rest := by
          simp [bbBonds, List.zip_cons_cons]
        rw [hstep, htail]
        simp [intrinsicBondCount]
      | some bb =>
        have hstep : bbBonds (off :: offs) (some bb :: rest) =
            shiftBonds off bb.bonds ++ bbBonds offs rest := by
          simp [bbBonds, List.zip_cons_cons]
        have hshift : (shiftBonds off bb.bonds).length = bb.bonds.length := by
          simp [shiftBonds]
        rw [hstep, List.length_append, htail, hshift]
        simp [intrinsicBondCount]

/-! C2 — global bond count and per-edge bond emission. -/

/-- C2: on a successful build the total bond count is the sum of the located
blocks' intrinsic bond counts, plus two bonds for every edge with a located
edge block and one for every edge without; moreover each edge with a block
contributes the two bonds pairing its permuted connection atoms with the two
matched endpoint atoms, and each edge without a block contributes the single
direct bond between the matched endpoint atoms. -/
theorem build_bond_count (ext : Externals) (topo0 : Topology)
    (node_bbs : List BuildingBlock)
    (edge_bbs : Option (List ((Nat × Nat) × BuildingBlock))) (st : BuildState)
    (h : buildState ext topo0 node_bbs edge_bbs = .ok st) :
    st.mof.bonds.length =
      intrinsicBondCount st.located +
        (2 * st.topo.edge_indices.countP (fun e => (st.located.getD e none).isSome) +
          st.topo.edge_indices.countP (fun e => !(st.located.getD e none).isSome)) ∧
    ∀ e ∈ st.topo.edge_indices,
      ∃ bs, interBondsForEdge st.topo st.located st.perms st.offsets e = .ok bs ∧
        (st.located.getD e none = none →
          ∃ a1 a2 n1 n2, st.topo.neighbor_list e = [n1, n2] ∧
            find_matched_atom_indices st.topo st.located st.perms e = .ok (a1, a2) ∧
            bs = [(a1 + st.offsets.getD n1.index 0, a2 + st.offsets.getD n2.index 0)]) ∧
        (∀ bb, st.located.getD e none = some bb →
          ∃ a1 a2 n1 n2 p c1 c2, st.topo.neighbor_list e = [n1, n2] ∧
            find_matched_atom_indices st.topo st.located st.perms e = .ok (a1, a2) ∧
            st.perms.getD e none = some p ∧
            p.map (fun k => bb.connection_point_indices.getD k 0) = [c1, c2] ∧
            bs = [(c1 + st.offsets.getD e 0, a1 + st.offsets.getD n1.index 0),
                  (c2 + st.offsets.getD e 0, a2 + st.offsets.getD n2.index 0)]) := by
  obtain ⟨-, -, -, hoff, hintra, hIB, hmof⟩ := buildState_ok_inv _ _ _ _ _ h
  constructor
  · have hlen : st.located.length ≤ st.offsets.length := by
      rw [hoff, indexOffsets, offsetsFrom_length]
      have h1 := List.length_dropLast st.located
      omega
    have hb : st.mof.bonds = st.intra ++ st.inter := by rw [hmof]
    rw [hb, List.length_append, hintra, bbBonds_length st.located st.offsets hlen,
      interBonds_length st.topo st.located st.perms st.offsets _ _ hIB]
  · intro e he
    obtain ⟨bs, hbs⟩ := interBonds_ok_mem st.topo st.located st.perms st.offsets _ _ hIB e he
    exact ⟨bs, hbs, fun hnone => interBondsForEdge_direct hnone hbs,
      fun bb hsome => interBondsForEdge_block hsome hbs⟩

/-- Witness for C2 on the concrete successful build with an edge template. -/
theorem build_bond_count_witness :
    buildState cExt cTopo [cNodeBB] (some [((0, 0), cEdgeBB)]) = .ok cState ∧
    (cState.mof.bonds.length =
      intrinsicBondCount cState.located +
        (2 * cState.topo.edge_indices.countP
            (fun e => (cState.located.getD e none).isSome) +
          cState.topo.edge_indices.countP
            (fun e => !(cState.located.getD e none).isSome)) ∧
    ∀ e ∈ cState.topo.edge_indices,
      ∃ bs, interBondsForEdge cState.topo cState.located cState.perms cState.offsets e =
          .ok bs ∧
        (cState.located.getD e none = none →
          ∃ a1 a2 n1 n2, cState.topo.neighbor_list e = [n1, n2] ∧
            find_matched_atom_indices cState.topo cState.located cState.perms e =
              .ok (a1, a2) ∧
            bs = [(a1 + cState.offsets.getD n1.index 0,
                   a2 + cState.offsets.getD n2.index 0)]) ∧
        (∀ bb, cState.located.getD e none = some bb →
          ∃ a1 a2 n1 n2 p c1 c2, cState.topo.neighbor_list e = [n1, n2] ∧
            find_matched_atom_indices cState.topo cState.located cState.perms e =
              .ok (a1, a2) ∧
            cState.perms.getD e none = some p ∧
            p.map (fun k => bb.connection_point_indices.getD k 0) = [c1, c2] ∧
            bs = [(c1 + cState.offsets.getD e 0, a1 + cState.offsets.getD n1.index 0),
                  (c2 + cState.offsets.getD e 0, a2 + cState.offsets.getD n2.index 0)])) :=
  ⟨cRun_eq, build_bond_count cExt cTopo [cNodeBB] (some [((0, 0), cEdgeBB)]) cState cRun_eq⟩

/-! C5 — absent edge types resolve to a direct bond, not an error. -/

/-- C5: an edge whose type has no entry in the edge mapping gets no edge
block and contributes exactly one direct bond between the matched endpoint
atoms; with the mapping entirely absent the inter-block bond count equals
the number of edges.  (The membership and disjointness hypotheses express
well-formedness of the scaled topology's index sets.) -/
theorem missing_edge_type_direct_bond (ext : Externals) (topo0 : Topology)
    (node_bbs : List BuildingBlock)
    (edge_bbs : Option (List ((Nat × Nat) × BuildingBlock))) (st : BuildState) (e : Nat)
    (h : buildState ext topo0 node_bbs edge_bbs = .ok st)
    (he : e ∈ st.topo.edge_indices)
    (hen : e ∉ st.topo.node_indices)
    (hlk : ∀ p ∈ (edge_bbs.getD [] : List ((Nat × Nat) × BuildingBlock)),
      p.1 ≠ st.topo.get_edge_type e) :
    st.located.getD e none = none ∧
    (∃ a1 a2 n1 n2, st.topo.neighbor_list e = [n1, n2] ∧
      find_matched_atom_indices st.topo st.located st.perms e = .ok (a1, a2) ∧
      interBondsForEdge st.topo st.located st.perms st.offsets e =
        .ok [(a1 + st.offsets.getD n1.index 0, a2 + st.offsets.getD n2.index 0)]) ∧
    (edge_bbs = none → (∀ j ∈ st.topo.edge_indices, j ∉ st.topo.node_indices) →
      st.inter.length = st.topo.edge_indices.length) := by
  have hnone := located_edge_none ext topo0 node_bbs edge_bbs st e h hen hlk
  obtain ⟨-, -, -, -, -, hIB, -⟩ := buildState_ok_inv _ _ _ _ _ h
  obtain ⟨bs, hbs⟩ := interBonds_ok_mem st.topo st.located st.perms st.offsets _ _ hIB e he
  obtain ⟨a1, a2, n1, n2, hnl, hfind, hbseq⟩ := interBondsForEdge_direct hnone hbs
  refine ⟨hnone, ⟨a1, a2, n1, n2, hnl, hfind, by rw [← hbseq]; exact hbs⟩, ?_⟩
  intro hebbs hdisj
  subst hebbs
  have hall : ∀ j ∈ st.topo.edge_indices, st.located.getD j none = none := by
    intro j hj
    exact located_edge_none ext topo0 node_bbs none st j h (hdisj j hj)
      (by intro p hp; simp at hp)
  rw [interBonds_length st.topo st.located st.perms st.offsets _ _ hIB]
  have hz : st.topo.edge_indices.countP (fun j => (st.located.getD j none).isSome) = 0 := by
    rw [List.countP_eq_zero]
    intro j hj
    rw [hall j hj]
    simp
  have hfull : st.topo.edge_indices.countP
      (fun j => !(st.located.getD j none).isSome) = st.topo.edge_indices.length := by
    rw [List.countP_eq_length]
    intro j hj
    rw [hall j hj]
    simp
  rw [hz, hfull]
  omega

/-- Witness for C5 on the concrete build with the edge mapping entirely
absent: the single edge gets no block and one direct bond. -/
theorem missing_edge_type_direct_bond_witness :
    buildState cExt cTopo [cNodeBB] none = .ok cState5 ∧
    (2 ∈ cState5.topo.edge_indices) ∧
    (2 ∉ cState5.topo.node_indices) ∧
    (cState5.located.getD 2 none = none ∧
      (∃ a1 a2 n1 n2, cState5.topo.neighbor_list 2 = [n1, n2] ∧
        find_matched_atom_indices cState5.topo cState5.located cState5.perms 2 =
          .ok (a1, a2) ∧
        interBondsForEdge cState5.topo cState5.located cState5.perms cState5.offsets 2 =
          .ok [(a1 + cState5.offsets.getD n1.index 0,
                a2 + cState5.offsets.getD n2.index 0)]) ∧
      ((none : Option (List ((Nat × Nat) × BuildingBlock))) = none →
        (∀ j ∈ cState5.topo.edge_indices, j ∉ cState5.topo.node_indices) →
        cState5.inter.length = cState5.topo.edge_indices.length)) :=
  ⟨cRun5_eq, by decide, by decide,
   missing_edge_type_direct_bond cExt cTopo [cNodeBB] none cState5 2 cRun5_eq
     (by decide) (by decide) (by intro p hp; simp at hp)⟩

/-! C9 — edge templates are looked up by the exact ordered type pair. -/

/-- C9: an edge block is placed only when the mapping holds a key equal to
the ordered pair `get_edge_type e`; a mapping keyed only by the reversed
pair places no block there and the edge falls back to the direct bond. -/
theorem edge_type_exact_ordered (ext : Externals) (topo0 : Topology)
    (node_bbs : List BuildingBlock) (items : List ((Nat × Nat) × BuildingBlock))
    (st : BuildState) (e ti tj : Nat)
    (h : buildState ext topo0 node_bbs (some items) = .ok st)
    (he : e ∈ st.topo.edge_indices)
    (hen : e ∉ st.topo.node_indices)
    (htype : st.topo.get_edge_type e = (ti, tj))
    (hne : ti ≠ tj)
    (hkeys : ∀ p ∈ items, p.1 = (tj, ti)) :
    st.located.getD e none = none ∧
    ∃ a1 a2 n1 n2, st.topo.neighbor_list e = [n1, n2] ∧
      find_matched_atom_indices st.topo st.located st.perms e = .ok (a1, a2) ∧
      interBondsForEdge st.topo st.located st.perms st.offsets e =
        .ok [(a1 + st.offsets.getD n1.index 0, a2 + st.offsets.getD n2.index 0)] := by
  have hlk : ∀ p ∈ ((some items).getD [] : List ((Nat × Nat) × BuildingBlock)),
      p.1 ≠ st.topo.get_edge_type e := by
    intro p hp
    rw [hkeys p (by simpa using hp), htype]
    intro hcontra
    injection hcontra with h1 h2
    exact hne h2
  have hnone := located_edge_none ext topo0 node_bbs (some items) st e h hen hlk
  obtain ⟨-, -, -, -, -, hIB, -⟩ := buildState_ok_inv _ _ _ _ _ h
  obtain ⟨bs, hbs⟩ := interBonds_ok_mem st.topo st.located st.perms st.offsets _ _ hIB e he
  obtain ⟨a1, a2, n1, n2, hnl, hfind, hbseq⟩ := interBondsForEdge_direct hnone hbs
  exact ⟨hnone, a1, a2, n1, n2, hnl, hfind, by rw [← hbseq]; exact hbs⟩

/-- Witness for C9: the single edge has type `(0, 1)` but the mapping's only
key is `(1, 0)`, so no edge block is placed and the direct bond is emitted. -/
theorem edge_type_exact_ordered_witness :
    buildState cExt eTopo [cNodeBB] (some [((1, 0), cEdgeBB)]) = .ok cState9 ∧
    cState9.topo.get_edge_type 2 = (0, 1) ∧
    (∀ p ∈ ([((1, 0), cEdgeBB)] : List ((Nat × Nat) × BuildingBlock)), p.1 = (1, 0)) ∧
    (cState9.located.getD 2 none = none ∧
      ∃ a1 a2 n1 n2, cState9.topo.neighbor_list 2 = [n1, n2] ∧
        find_matched_atom_indices cState9.topo cState9.located cState9.perms 2 =
          .ok (a1, a2) ∧
        interBondsForEdge cState9.topo cState9.located cState9.perms cState9.offsets 2 =
          .ok [(a1 + cState9.offsets.getD n1.index 0,
                a2 + cState9.offsets.getD n2.index 0)]) :=
  ⟨cRun9_eq, by decide,
   by intro p hp; simp only [List.mem_singleton] at hp; subst hp; rfl,
   edge_type_exact_ordered cExt eTopo [cNodeBB] [((1, 0), cEdgeBB)] cState9 2 0 1
     cRun9_eq (by decide) (by decide) (by decide) (by decide)
     (by intro p hp; simp only [List.mem_singleton] at hp; subst hp; rfl)⟩

/-! C7 — centroids of located blocks. -/

theorem sum_map_add_const (ps : List Vec3) (t : Vec3) :
    (ps.map (fun p => p + t)).sum = ps.sum + ps.length • t := by
  induction ps with
  | nil => simp
  | cons p rest ih =>
    simp only [List.map_cons, List.sum_cons, ih, List.length_cons, succ_nsmul]
    abel

theorem centroid_map_add (ps : List Vec3) (t : Vec3) (h : ps ≠ []) :
    centroid (ps.map (fun p => p + t)) = centroid ps + t := by
  have hn : (ps.length : ℚ) ≠ 0 := Nat.cast_ne_zero.mpr (List.length_pos.mpr h).ne'
  simp only [centroid, List.length_map, sum_map_add_const, smul_add]
  congr 1
  rw [← Nat.cast_smul_eq_nsmul ℚ ps.length t, smul_smul, one_div,
    inv_mul_cancel₀ hn, one_smul]

theorem centroid_setCenter (c : Vec3) (bb : LocatedBB) (h : bb.positions ≠ []) :
    centroid (setCenter c bb).positions = c := by
  simp only [setCenter]
  rw [centroid_map_add bb.positions _ h]
  abel

/-- C7 amended: every located block at a point that is not an edge point —
in particular every node block — has its centroid exactly at the scaled
topology's position for that point; edge blocks are instead centered at the
midpoint `r1 + d/2` of the minimum-image displacement between the matched
atoms, which need not coincide with the topology's edge-point position. -/
theorem node_centroid_amended (ext : Externals) (topo0 : Topology)
    (node_bbs : List BuildingBlock)
    (edge_bbs : Option (List ((Nat × Nat) × BuildingBlock))) (st : BuildState)
    (i : Nat) (bb : LocatedBB)
    (h : buildState ext topo0 node_bbs edge_bbs = .ok st)
    (hi : i ∉ st.topo.edge_indices)
    (hbb : st.located.getD i none = some bb)
    (hne : bb.positions ≠ []) :
    centroid bb.positions = st.topo.positions i := by
  obtain ⟨-, -, ⟨locatedN, permsN, h1, -, h3, -⟩, -, -, -, -⟩ :=
    buildState_ok_inv _ _ _ _ _ h
  rw [placeEdges_stable ext st.topo permsN _ _ _ h3 i (Or.inl hi)] at hbb
  rcases placeNodes_shape ext st.topo _ _ _ h1 i bb hbb with hrep | ⟨y, hy⟩
  · rw [getD_replicate_none] at hrep
    exact Option.noConfusion hrep
  · rw [hy] at hne ⊢
    refine centroid_setCenter _ _ ?_
    intro hempty
    exact hne (by simp [setCenter, hempty])

/-- Witness for the amended C7: node 0's block in the concrete build is
centered at the topology's node-0 position. -/
theorem node_centroid_amended_witness :
    buildState cExt cTopo [cNodeBB] (some [((0, 0), cEdgeBB)]) = .ok cState ∧
    ((0 : Nat) ∉ cState.topo.edge_indices) ∧
    cState.located.getD 0 none = some cLocN0 ∧
    cLocN0.positions ≠ [] ∧
    centroid cLocN0.positions = cState.topo.positions 0 :=
  ⟨cRun_eq, by decide, rfl, by simp [cLocN0],
   node_centroid_amended cExt cTopo [cNodeBB] (some [((0, 0), cEdgeBB)]) cState 0 cLocN0
     cRun_eq (by decide) rfl (by simp [cLocN0])⟩

/-- C7 counterexample: in the concrete successful build the located edge
block at point 2 has centroid `(3,0,0)` — the midpoint of the matched
connection atoms — while the topology stores the edge point at `(2,0,0)`. -/
theorem edge_centroid_cex :
    ((buildState cExt cTopo [cNodeBB] (some [((0, 0), cEdgeBB)])).map
        (fun st => ((st.located.getD 2 none).map (fun bb => centroid bb.positions),
                    st.topo.positions 2))).toOption =
      some (some ((3 : ℚ), (0 : ℚ), (0 : ℚ)), ((2 : ℚ), (0 : ℚ), (0 : ℚ))) ∧
    (((3 : ℚ), (0 : ℚ), (0 : ℚ)) : Vec3) ≠ (((2 : ℚ), (0 : ℚ), (0 : ℚ)) : Vec3) := by
  constructor
  · rw [cRun_eq]
    norm_num [cState, cLocE, centroid, cTopo, Except.map, Except.toOption, Prod.ext_iff]
  · intro hcontra
    rw [Prod.ext_iff] at hcontra
    norm_num at hcontra

end Cyanide
